import Mathlib

/-!
Verification of the AllivanFresh WhatsApp bot core against its
natural-language specification.

The development shallowly embeds the delivery quoting engine, the gazetteer
location lookup, the recommendation graph, the session cart machine and the
checkout orchestrator.  Numbers that are JavaScript `number` values are
modelled as rationals (`ℚ`); machine integers do not overflow in any code
path modelled here.  Fallible operations return `Option`/`Except`.
-/

namespace AllivanFresh

unseal Rat.add Rat.mul Rat.sub Rat.inv

/-! ## Business constants (src/config/constants.ts) -/

/-- RECOMMENDATION_CONFIG.maxRecommendations -/
def maxRecommendations : Nat := 3

/-- RECOMMENDATION_CONFIG.minStrength -/
def minStrength : ℚ := 2

/-- RECOMMENDATION_CONFIG.defaultStrength -/
def defaultStrength : ℚ := 1

/-! ## Delivery service (delivery.service.ts, known-locations variant)

`Math.round` in JavaScript rounds ties toward positive infinity. -/

/-- JavaScript `Math.round`. -/
def jsRound (q : ℚ) : ℤ := ⌊q + 1/2⌋

/-- Delivery zones of `DeliveryQuote.zone`. -/
inductive Zone where
  | town
  | nearby
  | far
  deriving DecidableEq, Repr

/-- `calculateFee`: ≤ 5 km free, ≤ 15 km flat 100, beyond that 10/km rounded. -/
def calculateFee (distanceKm : ℚ) : ℚ :=
  if distanceKm ≤ 5 then 0
  else if distanceKm ≤ 15 then 100
  else (jsRound (distanceKm * 10) : ℚ)

/-- `getZone`: ≤ 5 km town, ≤ 15 km nearby, else far. -/
def getZone (distanceKm : ℚ) : Zone :=
  if distanceKm ≤ 5 then .town
  else if distanceKm ≤ 15 then .nearby
  else .far

/-- `DeliveryQuote` record returned by the delivery service. -/
structure DeliveryQuote where
  locationName : String
  distanceKm : ℚ
  fee : ℚ
  zone : Zone
  minimumOrderRequired : Option ℚ
  deriving DecidableEq, Repr

/-- `getDeliveryQuoteFromDistance`: quote from an already-known distance. -/
def getDeliveryQuoteFromDistance (distanceKm : ℚ) (locationName : String) :
    DeliveryQuote :=
  let zone := getZone distanceKm
  { locationName := locationName
    distanceKm := distanceKm
    fee := calculateFee distanceKm
    zone := zone
    minimumOrderRequired := if zone = .far then some 5000 else none }

/-! ## Gazetteer lookup (`KNOWN_LOCATIONS`, `lookupKnownLocation`) -/

/-- The static `KNOWN_LOCATIONS` table, in source order: lower-cased place
name paired with its road distance from the Kisumu reference point in km. -/
def KNOWN_LOCATIONS : List (String × ℚ) :=
  [("kondele", 2), ("kibuye", 1), ("mamboleo", 3), ("nyamasaria", 5),
   ("migosi", 2), ("lolwe", 1), ("milimani", 2), ("nyalenda", 3),
   ("manyatta", 2), ("obunga", 2), ("bandani", 3), ("polyview", 4),
   ("otonglo", 3), ("riat", 5), ("tom mboya", 1), ("oginga odinga", 1),
   ("dunga", 4), ("hippo point", 5),
   ("kisian", 7), ("kajulu", 8), ("alendu", 10), ("rabuor", 13),
   ("kibos", 10), ("kopere", 12), ("korando", 4), ("chiga", 6),
   ("nyang'ande", 8), ("nyahera", 6), ("ojolla", 5), ("car wash", 4),
   ("obambo", 8), ("dago", 7), ("usoma", 5), ("lwang'ni", 4),
   ("ahero", 22), ("maseno", 20), ("kombewa", 28), ("muhoroni", 42),
   ("chemelil", 48), ("katito", 35), ("koru", 33), ("sondu", 40),
   ("awasi", 30), ("chemase", 25), ("fort ternan", 38), ("tamu", 15),
   ("pap onditi", 18), ("miwani", 30), ("kibigori", 35),
   ("bondo", 58), ("siaya", 55), ("vihiga", 38), ("luanda", 48),
   ("kendu bay", 55), ("homa bay", 80), ("oyugis", 60),
   ("nandi hills", 50), ("kapsabet", 65), ("kakamega", 60),
   ("busia", 110), ("mumias", 80)]

/-- JavaScript regex word character class `\w` = `[A-Za-z0-9_]`. -/
def isWordChar (c : Char) : Bool := c.isAlphanum || c = '_'

/-- Lower-case a string character by character (`String.prototype.toLowerCase`
on the ASCII text handled here). -/
def lowerData (s : String) : List Char := s.data.map Char.toLower

/-- The test performed per table entry in `lookupKnownLocation`:
`new RegExp('\\b' + escapedName + '\\b', 'i').test(lowerText)`.
Every name in the table begins and ends with a word character, so the
boundary assertions amount to: the character before the occurrence (if any)
and the character after it (if any) are not word characters. -/
def wordBoundaryMatch (name text : List Char) : Bool :=
  (List.range (text.length + 1)).any fun i =>
    decide ((text.drop i).take name.length = name) &&
    (decide (i = 0) || !isWordChar ((text.take i).getLastD ' ')) &&
    (decide (text.length ≤ i + name.length) ||
      !isWordChar ((text.drop (i + name.length)).headD ' '))

/-- One comparison step of `pickLongest`. -/
def pickStep (acc : Option (String × ℚ)) (e : String × ℚ) :
    Option (String × ℚ) :=
  match acc with
  | none => some e
  | some b => if b.1.length < e.1.length then some e else some b

/-- `.sort((a, b) => b[0].length - a[0].length)` followed by taking the first
element: the earliest entry whose name has maximal length (the sort is
stable, so ties keep table order). -/
def pickLongest (l : List (String × ℚ)) : Option (String × ℚ) :=
  l.foldl pickStep none

/-- `lookupKnownLocation`: scan the table for names appearing in the
customer's text at word boundaries and return the longest matching name with
its distance. -/
def lookupKnownLocation (text : String) : Option (String × ℚ) :=
  let lowerText := lowerData text
  pickLongest (KNOWN_LOCATIONS.filter fun e => wordBoundaryMatch e.1.data lowerText)

/-! ## Distance parsing (`parseKmFromText`)

The source matches `/(\d+)\s*(km|kilometers?|kilometres?|kms)/i` and converts
the first captured digit run with `parseInt`.  JavaScript regex search is
leftmost-first; at a given start position the greedy `\d+` takes the maximal
digit run (backtracking it cannot succeed because a shorter run is followed
by another digit, never by a unit word), then `\s*` takes the whitespace run,
then one of the unit alternatives must match.  Since every alternative is a
prefix check and `kms` extends `km`, unit matching is: the rest of the text
starts with `km`, `kilometer` or `kilometre` (case-insensitively — we match
on the lower-cased text). -/

/-- Numeric value of a decimal digit run (`parseInt` on `\d+`). -/
def digitsVal (ds : List Char) : Nat :=
  ds.foldl (fun n c => n * 10 + (c.toNat - 48)) 0

/-- Does the text start with one of the regex's unit alternatives? -/
def unitPrefix (l : List Char) : Bool :=
  "km".data.isPrefixOf l || "kilometer".data.isPrefixOf l ||
    "kilometre".data.isPrefixOf l

/-- The value captured by the first successful match of the regex, scanning
left to right, on the lower-cased text. -/
def findKmMatch : List Char → Option Nat
  | [] => none
  | c :: rest =>
    if c.isDigit then
      let ds := (c :: rest).takeWhile Char.isDigit
      let after := (c :: rest).dropWhile Char.isDigit
      if unitPrefix (after.dropWhile Char.isWhitespace) then
        some (digitsVal ds)
      else findKmMatch rest
    else findKmMatch rest

/-- `parseKmFromText`: the first regex match's digits, accepted only when
strictly between 0 and 500. -/
def parseKmFromText (text : String) : Option Nat :=
  match findKmMatch (lowerData text) with
  | some km => if 0 < km ∧ km < 500 then some km else none
  | none => none

/-! ## Geocoding (`geocodeLocation`, `findClosestToKisumu`)

The haversine distance from the Kisumu reference point is a fixed real
function of the coordinates; the embedding abstracts it as a parameter
`dist : Coord → ℚ` and models each of the two Nominatim fetches by its
outcome: a thrown network error (caught by the surrounding `try`), a
non-OK HTTP response, or a JSON candidate list. -/

/-- A geocoder candidate's parsed coordinates. -/
structure Coord where
  lat : ℚ
  lon : ℚ
  deriving DecidableEq, Repr

/-- Outcome of one `fetch` of the Nominatim API. -/
inductive FetchResult where
  | netFail
  | httpError (status : Nat)
  | ok (results : List Coord)
  deriving DecidableEq, Repr

/-- `findClosestToKisumu`: among the candidates, the first one attaining the
strictly smallest distance from the reference point (`dist < closestDistance`
keeps the earlier candidate on ties); `null` on an empty list. -/
def findClosestToKisumu (dist : Coord → ℚ) (results : List Coord) :
    Option Coord :=
  results.foldl
    (fun acc r =>
      match acc with
      | none => some r
      | some b => if dist r < dist b then some r else some b)
    none

/-- `MAX_TRUSTED_DISTANCE_KM` -/
def MAX_TRUSTED_DISTANCE_KM : ℚ := 100

/-- `geocodeLocation`: primary biased query, broad retry when the primary
yields no candidate, sanity check on the best candidate's distance.  Every
failure path — including a thrown network fault, which the source catches —
returns `none`. -/
def geocodeLocation (dist : Coord → ℚ) (primary broad : FetchResult) :
    Option Coord :=
  match primary with
  | .netFail => none
  | .httpError _ => none
  | .ok results =>
    let best :=
      match findClosestToKisumu dist results with
      | some b => some b
      | none =>
        match broad with
        | .netFail => none
        | .httpError _ => none
        | .ok broadResults => findClosestToKisumu dist broadResults
    match best with
    | none => none
    | some b => if MAX_TRUSTED_DISTANCE_KM < dist b then none else some b

/-- `ROAD_MULTIPLIER` -/
def ROAD_MULTIPLIER : ℚ := 13 / 10

/-- `getDeliveryQuote`: known-locations table first (returning immediately on
a hit), then geocoding; the geocoded straight-line distance is road-adjusted
(`Math.round(straightLine * 1.3)`) before quoting. -/
def getDeliveryQuote (dist : Coord → ℚ) (primary broad : FetchResult)
    (locationName : String) : Option DeliveryQuote :=
  match lookupKnownLocation locationName with
  | some known => some (getDeliveryQuoteFromDistance known.2 locationName)
  | none =>
    match geocodeLocation dist primary broad with
    | none => none
    | some coords =>
      some (getDeliveryQuoteFromDistance
        ((jsRound (dist coords * ROAD_MULTIPLIER) : ℤ) : ℚ) locationName)

/-! ## Cart-aware delivery quoting (spec §4.2) -/

/-- `deliveryFeeReason` values (conversation-state.ts). -/
inductive FeeReason where
  | free_anchor
  | veg_only_flat
  | distance_based
  deriving DecidableEq, Repr

/-- Cart composition classes produced by `classifyCart` (spec §4.2). -/
inductive CartContents where
  | anchor
  | vegOnly
  | mixed
  deriving DecidableEq, Repr

/-- Cart-aware delivery quote, carrying the explanation code. -/
structure DeliveryQuoteCA where
  locationName : String
  distanceKm : ℚ
  fee : ℚ
  feeReason : FeeReason
  zone : Zone
  minimumOrderRequired : Option ℚ
  deriving DecidableEq, Repr

/-- Modelled from the spec: the cart-aware `getDeliveryQuoteFromDistance`
variant imported by message.controller.ts (together with `classifyCart` and
the `feeReason` field) is absent from the sources; only its callers and the
`deliveryFeeReason` state field exist.  Spec §4.2: fee precedence is
town ∧ anchor → 0 / free-anchor, then vegetables-only ∧ town → flat 250 /
veg-only-flat, else the distance-based fee; far zone carries the minimum
order figure.  Zone thresholds and the distance-based fee are the source's
`getZone`/`calculateFee`. -/
def getDeliveryQuoteFromDistanceCA (distanceKm : ℚ) (locationName : String)
    (cartContents : CartContents) : DeliveryQuoteCA :=
  let zone := getZone distanceKm
  let feeAndReason : ℚ × FeeReason :=
    if zone = .town ∧ cartContents = .anchor then (0, .free_anchor)
    else if cartContents = .vegOnly ∧ zone = .town then (250, .veg_only_flat)
    else (calculateFee distanceKm, .distance_based)
  { locationName := locationName
    distanceKm := distanceKm
    fee := feeAndReason.1
    feeReason := feeAndReason.2
    zone := zone
    minimumOrderRequired := if zone = .far then some 5000 else none }

/-! ## Products and carts (conversation.service.ts, conversation-state.ts) -/

/-- Prisma `ProductCategory`. -/
inductive ProductCategory where
  | FISH
  | CHICKEN
  | VEGETABLES
  deriving DecidableEq, Repr

/-- Prisma `AvailabilityStatus`. -/
inductive AvailabilityStatus where
  | IN_STOCK
  | AVAILABLE_ON_REQUEST
  | OUT_OF_STOCK
  deriving DecidableEq, Repr

/-- Product row (prisma schema fields used by the core). -/
structure Product where
  id : String
  name : String
  nameSwahili : Option String
  category : ProductCategory
  basePrice : ℚ
  unit : String
  availability : AvailabilityStatus
  stockQuantity : Option ℤ
  isActive : Bool
  deriving DecidableEq, Repr

/-- `CartItem` (conversation-state.ts). -/
structure CartItem where
  productId : String
  productName : String
  productNameSwahili : Option String
  quantity : ℚ
  unitPrice : ℚ
  totalPrice : ℚ
  unit : String
  notes : Option String
  deriving DecidableEq, Repr

/-- Note merge in `addToCart`: `if (notes) { item.notes = notes }` — the
empty string is falsy in JavaScript, so it does not overwrite. -/
def mergeNotes (notes old : Option String) : Option String :=
  match notes with
  | some n => if n = "" then old else some n
  | none => old

/-- The fresh cart line pushed by `addToCart` for a product not yet in the
cart. -/
def newCartItem (product : Product) (quantity : ℚ) (notes : Option String) :
    CartItem :=
  { productId := product.id
    productName := product.name
    productNameSwahili := product.nameSwahili
    quantity := quantity
    unitPrice := product.basePrice
    totalPrice := quantity * product.basePrice
    unit := product.unit
    notes := notes }

/-- Cart mutation of `ConversationService.addToCart`: `findIndex` on the
product id; on a hit the line's quantity accumulates and its total is
recomputed from the product's current `basePrice`; otherwise a new line is
pushed at the end. -/
def addToCartList (product : Product) (quantity : ℚ) (notes : Option String) :
    List CartItem → List CartItem
  | [] => [newCartItem product quantity notes]
  | item :: rest =>
    if item.productId = product.id then
      { item with
        quantity := item.quantity + quantity
        totalPrice := (item.quantity + quantity) * product.basePrice
        notes := mergeNotes notes item.notes } :: rest
    else item :: addToCartList product quantity notes rest

/-- Cart mutation of `ConversationService.removeFromCart`. -/
def removeFromCartList (productId : String) (cart : List CartItem) :
    List CartItem :=
  cart.filter fun item => item.productId ≠ productId

/-- One cart operation of the session state machine. -/
inductive CartOp where
  | add (product : Product) (quantity : ℚ) (notes : Option String)
  | remove (productId : String)
  | clear
  deriving Repr

/-- Apply one cart operation. -/
def applyCartOp (cart : List CartItem) : CartOp → List CartItem
  | .add p q n => addToCartList p q n cart
  | .remove pid => removeFromCartList pid cart
  | .clear => []

/-- Apply a sequence of cart operations. -/
def applyCartOps (cart : List CartItem) (ops : List CartOp) : List CartItem :=
  ops.foldl applyCartOp cart

/-! ## Recommendation graph updates (recommendation.service.ts) -/

/-- A `ProductRecommendation` row: directed edge with a strength. -/
structure RecEdge where
  productId : String
  recommendedId : String
  strength : ℚ
  deriving DecidableEq, Repr

/-- Recommendation graph: the `productRecommendation` table (the composite
key `(productId, recommendedId)` is unique, so lookups find at most one
row). -/
abbrev RecGraph := List RecEdge

/-- `findUnique` on the composite key. -/
def lookupEdge (g : RecGraph) (productId recommendedId : String) : Option ℚ :=
  (g.find? fun e =>
    e.productId = productId ∧ e.recommendedId = recommendedId).map (·.strength)

/-- Row update of the matching edge's strength. -/
def setEdgeStrength (productId recommendedId : String) (s : ℚ) :
    RecGraph → RecGraph
  | [] => []
  | e :: rest =>
    if e.productId = productId ∧ e.recommendedId = recommendedId then
      { e with strength := s } :: rest
    else e :: setEdgeStrength productId recommendedId s rest

/-- `incrementRecommendation`: increment an existing edge's strength by 1, or
create the edge at `defaultStrength`. -/
def incrementRecommendation (productId recommendedId : String) (g : RecGraph) :
    RecGraph :=
  match lookupEdge g productId recommendedId with
  | some s => setEdgeStrength productId recommendedId (s + 1) g
  | none =>
    g ++ [{ productId := productId, recommendedId := recommendedId,
            strength := defaultStrength }]

/-- Inner pair loop of `updateRecommendationsFromOrder`: for item `i`, both
directions of every pair `(i, j)` with `j > i`. -/
def updatePairsWith (pid : String) (rest : List String) (g : RecGraph) :
    RecGraph :=
  rest.foldl
    (fun g pid2 =>
      incrementRecommendation pid2 pid (incrementRecommendation pid pid2 g))
    g

/-- `updateRecommendationsFromOrder`: no update for fewer than two order
items; otherwise increment both directions of every index pair `i < j`. -/
def updateRecommendationsFromOrder (orderItems : List String) (g : RecGraph) :
    RecGraph :=
  if orderItems.length < 2 then g
  else go orderItems g
where
  /-- Outer loop over `i`. -/
  go : List String → RecGraph → RecGraph
    | [], g => g
    | pid :: rest, g => go rest (updatePairsWith pid rest g)

/-! ## Recommendation queries (recommendation.service.ts) -/

/-- An edge row as returned by the `getRecommendations` query, with the
joined `recommended` product. -/
structure RecRow where
  productId : String
  strength : ℚ
  recommended : Product
  deriving DecidableEq, Repr

/-- Stable insertion of a row into a strength-descending list. -/
def insertDesc (e : RecRow) : List RecRow → List RecRow
  | [] => [e]
  | x :: xs => if x.strength < e.strength then e :: x :: xs else x :: insertDesc e xs

/-- Stable sort by strength descending (`orderBy: { strength: 'desc' }`). -/
def sortByStrengthDesc (l : List RecRow) : List RecRow :=
  l.foldr insertDesc []

/-- The `findMany` of `getRecommendations`: rows whose source product is in
the cart and whose strength reaches `minStrength`, strength-descending,
first `maxRecommendations * 2` rows. -/
def recommendationQuery (cartIds : List String) (rows : List RecRow) :
    List RecRow :=
  (sortByStrengthDesc (rows.filter fun e =>
    cartIds.contains e.productId ∧ minStrength ≤ e.strength)).take
    (maxRecommendations * 2)

/-- The result-building loop of `getRecommendations`: skip targets already in
the cart or already collected (`continue`, bypassing the break check), add
active in-stock targets, and break once the map holds
`maxRecommendations`. -/
def buildRecommendations (cartIds : List String) :
    List RecRow → List Product → List Product
  | [], acc => acc
  | e :: rest, acc =>
    let p := e.recommended
    if cartIds.contains p.id then buildRecommendations cartIds rest acc
    else if acc.any fun q => q.id = p.id then
      buildRecommendations cartIds rest acc
    else
      let acc' :=
        if p.isActive && p.availability == .IN_STOCK then acc ++ [p] else acc
      if maxRecommendations ≤ acc'.length then acc'
      else buildRecommendations cartIds rest acc'

/-- `getRecommendations`: empty for an empty cart, else the query feeding the
collection loop. -/
def getRecommendations (cart : List CartItem) (rows : List RecRow) :
    List Product :=
  if cart = [] then []
  else
    let cartIds := cart.map (·.productId)
    buildRecommendations cartIds (recommendationQuery cartIds rows) []

/-! ## Stock decrement (product.service.ts `decrementStock`) -/

/-- `decrementStock` effect on one product row: unlimited stock
(`stockQuantity === null`) is untouched; otherwise the stock is reduced by
`Math.ceil(quantity)` floored at zero, and hitting zero flips availability to
out-of-stock. -/
def decrementStockP (p : Product) (quantity : ℚ) : Product :=
  match p.stockQuantity with
  | none => p
  | some s =>
    let newQty := max 0 (s - ⌈quantity⌉)
    if newQty = 0 then
      { p with stockQuantity := some newQty, availability := .OUT_OF_STOCK }
    else { p with stockQuantity := some newQty }

/-- `decrementStock` on the product table: update the row with the given id
(missing products are untouched). -/
def decrementStock (products : List Product) (productId : String)
    (quantity : ℚ) : List Product :=
  products.map fun p => if p.id = productId then decrementStockP p quantity else p

/-! ## Session state and checkout (conversation.service.ts,
message.controller.ts, order.controller.ts, order.service.ts)

The persistent store is explicit state: session rows keyed by customer id,
the order table, the product table and the recommendation table.  The
inactivity-expiry check and timestamps need a wall clock and are outside the
model; `getState` is the non-expired read.  E-mail dispatch is an external
collaborator, abstracted by its boolean outcome. -/

/-- `ConversationStep` (constants.ts). -/
inductive ConversationStep where
  | greeting
  | browsing
  | cart_management
  | requesting_location
  | confirming_order
  | order_placed
  deriving DecidableEq, Repr

/-- `ConversationState` (conversation-state.ts). -/
structure ConversationState where
  step : ConversationStep
  cart : List CartItem
  deliveryLocation : Option String
  deliveryNotes : Option String
  deliveryDistanceKm : Option ℚ
  deliveryFee : Option ℚ
  deliveryFeeReason : Option FeeReason
  deliveryZone : Option Zone
  deriving DecidableEq, Repr

/-- `getDefaultState`. -/
def getDefaultState : ConversationState :=
  { step := .greeting
    cart := []
    deliveryLocation := none
    deliveryNotes := none
    deliveryDistanceKm := none
    deliveryFee := none
    deliveryFeeReason := none
    deliveryZone := none }

/-- `OrderStatus` (prisma enum values used by checkout). -/
inductive OrderStatus where
  | PENDING
  | CONFIRMED
  | EMAIL_SENT
  deriving DecidableEq, Repr

/-- An `OrderItem` row snapshotted from a cart line. -/
structure OrderItem where
  productId : String
  quantity : ℚ
  unitPrice : ℚ
  totalPrice : ℚ
  notes : Option String
  deriving DecidableEq, Repr

/-- An `Order` row.  Order numbers are modelled by their sequence value; the
generator's collision retry never fires here because the count of existing
orders yields a fresh value by construction. -/
structure Order where
  orderNumber : Nat
  customerId : String
  deliveryLocation : String
  items : List OrderItem
  totalAmount : ℚ
  status : OrderStatus
  deriving DecidableEq, Repr

/-- The persistent store. -/
structure Db where
  sessions : List (String × ConversationState)
  orders : List Order
  products : List Product
  recs : RecGraph
  deriving Repr

/-- `ConversationService.getState` (non-expired read): the stored state, or
the default for an unknown customer. -/
def getState (db : Db) (customerId : String) : ConversationState :=
  match db.sessions.find? fun s => s.1 = customerId with
  | some s => s.2
  | none => getDefaultState

/-- `ConversationService.updateState`: upsert of the session row. -/
def updateState (db : Db) (customerId : String) (state : ConversationState) :
    Db :=
  if db.sessions.any fun s => s.1 = customerId then
    { db with
      sessions := db.sessions.map fun s =>
        if s.1 = customerId then (s.1, state) else s }
  else { db with sessions := db.sessions ++ [(customerId, state)] }

/-- JavaScript truthiness of `state.deliveryLocation`: `undefined` and the
empty string are falsy. -/
def locationPresent : Option String → Bool
  | none => false
  | some l => l ≠ ""

/-- `OrderService.createOrder`: validate, snapshot the cart into order items,
total the cart and insert a `PENDING` order. -/
def createOrder (customerId : String) (state : ConversationState) (db : Db) :
    Except String (Order × Db) :=
  if state.cart = [] then .error "Cart is empty"
  else if !locationPresent state.deliveryLocation then
    .error "Delivery location is required"
  else
    let order : Order :=
      { orderNumber := db.orders.length + 1
        customerId := customerId
        deliveryLocation := state.deliveryLocation.getD ""
        items := state.cart.map fun item =>
          { productId := item.productId
            quantity := item.quantity
            unitPrice := item.unitPrice
            totalPrice := item.totalPrice
            notes := item.notes }
        totalAmount := state.cart.foldl (fun s item => s + item.totalPrice) 0
        status := .PENDING }
    .ok (order, { db with orders := db.orders ++ [order] })

/-- `OrderService.updateOrderStatus`. -/
def updateOrderStatus (db : Db) (orderNumber : Nat) (status : OrderStatus) :
    Db :=
  { db with
    orders := db.orders.map fun o =>
      if o.orderNumber = orderNumber then { o with status := status } else o }

/-- `ConversationService.clearCart`: read the stored session, empty its cart,
write it back. -/
def clearCartDb (db : Db) (customerId : String) : Db :=
  updateState db customerId { getState db customerId with cart := [] }

/-- `OrderController.processCheckout`.  It validates the in-memory `state`
argument it was handed, creates and confirms the order, sends the e-mail
notification (outcome `emailOk`; failure only skips the `EMAIL_SENT` status),
decrements stock per item, feeds the order into the recommendation graph and
clears the stored cart.  The `state` argument itself is never mutated. -/
def processCheckout (emailOk : Bool) (customerId : String)
    (state : ConversationState) (db : Db) : Except String Db := do
  if state.cart = [] then throw "Cart is empty"
  if !locationPresent state.deliveryLocation then
    throw "Delivery location is required"
  let (order, db) ← createOrder customerId state db
  let db := updateOrderStatus db order.orderNumber .CONFIRMED
  let db :=
    if emailOk then updateOrderStatus db order.orderNumber .EMAIL_SENT else db
  let db :=
    { db with
      products := order.items.foldl
        (fun (ps : List Product) (item : OrderItem) =>
          decrementStock ps item.productId item.quantity)
        db.products }
  let db :=
    { db with
      recs := updateRecommendationsFromOrder
        (order.items.map fun (item : OrderItem) => item.productId) db.recs }
  pure (clearCartDb db customerId)

/-! ## Action execution (message.controller.ts `executeActions`) -/

/-- The typed actions returned by the language-understanding step that
`executeActions` handles. -/
inductive Action where
  | addToCart (productId : String) (quantity : ℚ) (notes : Option String)
  | removeFromCart (productId : String)
  | clearCart
  | requestLocation
  | confirmOrder
  | showProducts (productIds : List String)
  | unknown
  deriving Repr

/-- `ConversationService.addToCart`: resolve the product (an unknown id
throws, which the action loop catches), read the stored session, merge the
line, write back. -/
def addToCartDb (db : Db) (customerId productId : String) (quantity : ℚ)
    (notes : Option String) : Except String Db :=
  match db.products.find? fun p => p.id = productId with
  | none => .error "Product not found"
  | some product =>
    let state := getState db customerId
    .ok (updateState db customerId
      { state with cart := addToCartList product quantity notes state.cart })

/-- `ConversationService.removeFromCart`. -/
def removeFromCartDb (db : Db) (customerId productId : String) : Db :=
  let state := getState db customerId
  updateState db customerId
    { state with cart := removeFromCartList productId state.cart }

/-- One iteration of the `executeActions` loop.  The loop shares the
in-memory `state` object across iterations; only `request_location` mutates
it.  Every action's failure is caught and logged, never aborting the rest of
the batch. -/
def applyAction (emailOk : Bool) (customerId : String)
    (acc : ConversationState × Db) (action : Action) :
    ConversationState × Db :=
  let (state, db) := acc
  match action with
  | .addToCart productId quantity notes =>
    -- guard `if (action.data.productId && action.data.quantity)`
    if productId = "" ∨ quantity = 0 then (state, db)
    else
      match addToCartDb db customerId productId quantity notes with
      | .ok db' => (state, db')
      | .error _ => (state, db)
  | .removeFromCart productId =>
    if productId = "" then (state, db)
    else (state, removeFromCartDb db customerId productId)
  | .clearCart => (state, clearCartDb db customerId)
  | .requestLocation =>
    let state' := { state with step := .requesting_location }
    (state', updateState db customerId state')
  | .confirmOrder =>
    match processCheckout emailOk customerId state db with
    | .ok db' => (state, db')
    | .error _ => (state, db)
  | .showProducts _ => (state, db)
  | .unknown => (state, db)

/-- `executeActions`: fold the action batch over the shared in-memory state
and the store. -/
def executeActions (emailOk : Bool) (customerId : String)
    (state : ConversationState) (db : Db) (actions : List Action) :
    ConversationState × Db :=
  actions.foldl (applyAction emailOk customerId) (state, db)

/-! ## Theorems -/

/-- Claim C1: the delivery quote follows the fee-rules table — distance 3
with an anchor cart quotes fee 0 / free-anchor / town; distance 3 with a
vegetables-only cart quotes fee 250 / veg-only-flat / town; distance 10 with
an anchor cart quotes the nearby flat fee 100; distance 30 is the far zone
with fee round(30 × 10) = 300 and the minimum-order figure attached. -/
theorem deliveryQuote_fee_rules_table (name : String) (c : CartContents) :
    ((getDeliveryQuoteFromDistanceCA 3 name .anchor).fee = 0 ∧
      (getDeliveryQuoteFromDistanceCA 3 name .anchor).feeReason = .free_anchor ∧
      (getDeliveryQuoteFromDistanceCA 3 name .anchor).zone = .town) ∧
    ((getDeliveryQuoteFromDistanceCA 3 name .vegOnly).fee = 250 ∧
      (getDeliveryQuoteFromDistanceCA 3 name .vegOnly).feeReason = .veg_only_flat ∧
      (getDeliveryQuoteFromDistanceCA 3 name .vegOnly).zone = .town) ∧
    ((getDeliveryQuoteFromDistanceCA 10 name .anchor).fee = 100 ∧
      (getDeliveryQuoteFromDistanceCA 10 name .anchor).zone = .nearby) ∧
    ((getDeliveryQuoteFromDistanceCA 30 name c).zone = .far ∧
      (getDeliveryQuoteFromDistanceCA 30 name c).fee = 300 ∧
      (getDeliveryQuoteFromDistanceCA 30 name c).minimumOrderRequired = some 5000) := by
  refine ⟨⟨rfl, rfl, rfl⟩, ⟨rfl, rfl, rfl⟩, ⟨rfl, rfl⟩, ?_⟩
  have hzone : getZone (30 : ℚ) = .far := by norm_num [getZone]
  have hfee : calculateFee 30 = 300 := by norm_num [calculateFee, jsRound]
  cases c <;> simp [getDeliveryQuoteFromDistanceCA, hzone, hfee]

/-- Claim C10: `decrementStock` leaves a product with a null stock counter
entirely unchanged; with a counter present the new counter is the old one
minus the ceiling of the ordered quantity floored at zero, never negative,
and availability becomes out-of-stock exactly when the new counter is
zero. -/
theorem decrementStock_spec (p : Product) (q : ℚ) :
    (p.stockQuantity = none → decrementStockP p q = p) ∧
    ∀ s, p.stockQuantity = some s →
      (decrementStockP p q).stockQuantity = some (max 0 (s - ⌈q⌉)) ∧
      (∀ s', (decrementStockP p q).stockQuantity = some s' → 0 ≤ s') ∧
      (decrementStockP p q).availability =
        (if max 0 (s - ⌈q⌉) = 0 then .OUT_OF_STOCK else p.availability) := by
  constructor
  · intro h
    simp [decrementStockP, h]
  · intro s hs
    by_cases hle : s ≤ ⌈q⌉
    · have h0 : 0 ⊔ (s - ⌈q⌉) = 0 := by omega
      simp [decrementStockP, hs, hle, h0]
    · have h0 : ¬(0 ⊔ (s - ⌈q⌉) = 0) := by omega
      simp only [decrementStockP, hs]
      rw [if_neg (by omega : ¬(0 ⊔ (s - ⌈q⌉) = 0))]
      refine ⟨rfl, ?_, by simp [h0]⟩
      intro s' hs'
      simp only [Option.some.injEq] at hs'
      omega

/-- Claim C8: `geocodeLocation` never propagates a fault — a thrown network
error on either fetch, a non-OK HTTP response, an empty candidate list and a
best candidate farther than the 100 km trusted radius all yield the same
null result. -/
theorem geocodeLocation_error_paths (dist : Coord → ℚ) (broad : FetchResult)
    (status : Nat) (results : List Coord) (best : Coord) :
    geocodeLocation dist .netFail broad = none ∧
    geocodeLocation dist (.httpError status) broad = none ∧
    geocodeLocation dist (.ok []) .netFail = none ∧
    geocodeLocation dist (.ok []) (.httpError status) = none ∧
    geocodeLocation dist (.ok []) (.ok []) = none ∧
    (findClosestToKisumu dist results = some best →
      MAX_TRUSTED_DISTANCE_KM < dist best →
      geocodeLocation dist (.ok results) broad = none) := by
  refine ⟨rfl, rfl, rfl, rfl, rfl, ?_⟩
  intro hbest hfar
  simp [geocodeLocation, hbest, hfar]

/-- Witness for `geocodeLocation_error_paths`: a single candidate 101 km out
is rejected. -/
theorem geocodeLocation_error_paths_witness :
    findClosestToKisumu (fun _ => 101) [⟨0, 0⟩] = some ⟨0, 0⟩ ∧
    MAX_TRUSTED_DISTANCE_KM < (fun (_ : Coord) => (101 : ℚ)) ⟨0, 0⟩ ∧
    geocodeLocation (fun _ => 101) (.ok [⟨0, 0⟩]) .netFail = none :=
  ⟨rfl, by decide,
    (geocodeLocation_error_paths (fun _ => 101) .netFail 0 [⟨0, 0⟩] ⟨0, 0⟩).2.2.2.2.2
      rfl (by decide)⟩

/-- A sample product used to instantiate witnesses. -/
def sampleProduct : Product :=
  { id := "p1"
    name := "Tilapia"
    nameSwahili := some "Ngege"
    category := .FISH
    basePrice := 500
    unit := "per kg"
    availability := .IN_STOCK
    stockQuantity := some 5
    isActive := true }

/-- Witness for `decrementStock_spec` at a product with stock 5 and ordered
quantity 2. -/
theorem decrementStock_spec_witness :
    sampleProduct.stockQuantity = some 5 ∧
    ((decrementStockP sampleProduct 2).stockQuantity =
        some (max 0 (5 - ⌈(2 : ℚ)⌉)) ∧
      (∀ s', (decrementStockP sampleProduct 2).stockQuantity = some s' →
        0 ≤ s') ∧
      (decrementStockP sampleProduct 2).availability =
        (if max 0 (5 - ⌈(2 : ℚ)⌉) = 0 then .OUT_OF_STOCK
         else sampleProduct.availability)) :=
  ⟨rfl, (decrementStock_spec sampleProduct 2).2 5 rfl⟩

/-- Helper for `parseKmFromText_spec`: a successful scan yields a
digit-run / whitespace / unit decomposition of the text. -/
theorem findKmMatch_decomposition (l : List Char) (v : Nat)
    (h : findKmMatch l = some v) :
    ∃ pre ds ws suf, l = pre ++ ds ++ ws ++ suf ∧ ds ≠ [] ∧
      (∀ c ∈ ds, c.isDigit) ∧ (∀ c ∈ ws, c.isWhitespace) ∧
      unitPrefix suf = true ∧ digitsVal ds = v := by
  induction l with
  | nil => simp [findKmMatch] at h
  | cons c rest ih =>
    by_cases hc : c.isDigit
    · by_cases hu :
        unitPrefix (((c :: rest).dropWhile Char.isDigit).dropWhile
          Char.isWhitespace) = true
      · refine ⟨[], (c :: rest).takeWhile Char.isDigit,
          ((c :: rest).dropWhile Char.isDigit).takeWhile Char.isWhitespace,
          ((c :: rest).dropWhile Char.isDigit).dropWhile Char.isWhitespace,
          ?_, ?_, ?_, ?_, hu, ?_⟩
        · simp [List.takeWhile_append_dropWhile]
        · simp [List.takeWhile_cons, hc]
        · intro x hx
          exact List.mem_takeWhile_imp hx
        · intro x hx
          exact List.mem_takeWhile_imp hx
        · rw [findKmMatch] at h
          simp only [hc, if_pos, hu, if_true] at h
          exact (Option.some.injEq _ _).mp h
      · rw [findKmMatch] at h
        simp only [hc, if_pos, hu, if_false] at h
        obtain ⟨pre, ds, ws, suf, hdec, hne, hds, hws, hu', hv⟩ := ih h
        exact ⟨c :: pre, ds, ws, suf, by simp [hdec], hne, hds, hws, hu', hv⟩
    · rw [findKmMatch] at h
      simp only [hc, if_false] at h
      obtain ⟨pre, ds, ws, suf, hdec, hne, hds, hws, hu', hv⟩ := ih h
      exact ⟨c :: pre, ds, ws, suf, by simp [hdec], hne, hds, hws, hu', hv⟩

/-- Claim C9: `parseKmFromText` returns a distance only when a digit run
followed (after optional whitespace) by a distance-unit word occurs in the
text and its value is strictly between 0 and 500; on the decimal figure
"10.5 km" only the digits after the decimal point match, giving 5. -/
theorem parseKmFromText_spec :
    (∀ text km, parseKmFromText text = some km →
      0 < km ∧ km < 500 ∧
      ∃ pre ds ws suf, lowerData text = pre ++ ds ++ ws ++ suf ∧ ds ≠ [] ∧
        (∀ c ∈ ds, c.isDigit) ∧ (∀ c ∈ ws, c.isWhitespace) ∧
        unitPrefix suf = true ∧ digitsVal ds = km) ∧
    parseKmFromText "10.5 km" = some 5 := by
  constructor
  · intro text km h
    rw [parseKmFromText] at h
    cases hm : findKmMatch (lowerData text) with
    | none => rw [hm] at h; exact absurd h (by simp)
    | some v =>
      rw [hm] at h
      dsimp only at h
      by_cases hrange : 0 < v ∧ v < 500
      · rw [if_pos hrange] at h
        obtain rfl : v = km := (Option.some.injEq _ _).mp h
        exact ⟨hrange.1, hrange.2, findKmMatch_decomposition _ _ hm⟩
      · rw [if_neg hrange] at h
        exact absurd h (by simp)
  · rfl

/-- Witness for `parseKmFromText_spec`: its general part applied to
"10.5 km", which parses to 5. -/
theorem parseKmFromText_spec_witness :
    0 < 5 ∧ 5 < 500 ∧
    ∃ pre ds ws suf, lowerData "10.5 km" = pre ++ ds ++ ws ++ suf ∧ ds ≠ [] ∧
      (∀ c ∈ ds, c.isDigit) ∧ (∀ c ∈ ws, c.isWhitespace) ∧
      unitPrefix suf = true ∧ digitsVal ds = 5 :=
  parseKmFromText_spec.1 "10.5 km" 5 (by rfl)

/-- Folding `pickStep` from a present accumulator yields an element that is
either the accumulator or drawn from the list, is at least as long as the
accumulator, and is at least as long as every list element. -/
theorem foldl_pickStep_spec (l : List (String × ℚ)) (b : String × ℚ) :
    ∃ e, l.foldl pickStep (some b) = some e ∧ (e = b ∨ e ∈ l) ∧
      b.1.length ≤ e.1.length ∧ ∀ x ∈ l, x.1.length ≤ e.1.length := by
  induction l generalizing b with
  | nil => exact ⟨b, rfl, .inl rfl, le_refl _, by simp⟩
  | cons x xs ih =>
    by_cases hlt : b.1.length < x.1.length
    · obtain ⟨e, he, hmem, hle, hall⟩ := ih x
      refine ⟨e, ?_, ?_, ?_, ?_⟩
      · simpa [pickStep, hlt] using he
      · cases hmem with
        | inl h => exact .inr (by simp [h])
        | inr h => exact .inr (by simp [h])
      · exact le_of_lt (lt_of_lt_of_le hlt hle)
      · intro y hy
        rcases List.mem_cons.mp hy with rfl | hy'
        · exact hle
        · exact hall y hy'
    · obtain ⟨e, he, hmem, hle, hall⟩ := ih b
      refine ⟨e, ?_, ?_, hle, ?_⟩
      · simpa [pickStep, hlt] using he
      · cases hmem with
        | inl h => exact .inl h
        | inr h => exact .inr (by simp [h])
      · intro y hy
        rcases List.mem_cons.mp hy with rfl | hy'
        · exact le_trans (Nat.le_of_not_lt hlt) hle
        · exact hall y hy'

/-- `pickLongest` returns a list element whose name length is maximal. -/
theorem pickLongest_spec (l : List (String × ℚ)) (e : String × ℚ)
    (h : pickLongest l = some e) :
    e ∈ l ∧ ∀ x ∈ l, x.1.length ≤ e.1.length := by
  cases l with
  | nil => exact absurd h (by simp [pickLongest])
  | cons a xs =>
    obtain ⟨e', he', hmem, hle, hall⟩ := foldl_pickStep_spec xs a
    have hfold : pickLongest (a :: xs) = xs.foldl pickStep (some a) := rfl
    rw [hfold, he'] at h
    obtain rfl : e' = e := (Option.some.injEq _ _).mp h
    constructor
    · cases hmem with
      | inl hh => simp [hh]
      | inr hh => simp [hh]
    · intro y hy
      rcases List.mem_cons.mp hy with rfl | hy'
      · exact hle
      · exact hall y hy'

/-- Claim C4 (amended): gazetteer lookup returns a table entry matching the
text at a word boundary whose name is longest among all matching entries;
a gazetteer hit makes the delivery quote independent of the geocoder; and
the input "near Kondele junction on Kakamega road" resolves through the
gazetteer to Kakamega's fixed 60 km — the longest matching name — without
any geocoder call. -/
theorem lookupKnownLocation_longest_match (text : String) (e : String × ℚ)
    (d1 d2 : Coord → ℚ) (p1 p2 b1 b2 : FetchResult) :
    (lookupKnownLocation text = some e →
      e ∈ KNOWN_LOCATIONS ∧
      wordBoundaryMatch e.1.data (lowerData text) = true ∧
      ∀ x ∈ KNOWN_LOCATIONS, wordBoundaryMatch x.1.data (lowerData text) = true →
        x.1.length ≤ e.1.length) ∧
    (lookupKnownLocation text ≠ none →
      getDeliveryQuote d1 p1 b1 text = getDeliveryQuote d2 p2 b2 text) ∧
    getDeliveryQuote d1 p1 b1 "near Kondele junction on Kakamega road" =
      some (getDeliveryQuoteFromDistance 60
        "near Kondele junction on Kakamega road") := by
  refine ⟨?_, ?_, ?_⟩
  · intro h
    obtain ⟨hmem, hall⟩ := pickLongest_spec _ _ h
    have hmem' := List.mem_filter.mp hmem
    refine ⟨hmem'.1, by simpa using hmem'.2, ?_⟩
    intro x hx hxmatch
    exact hall x (List.mem_filter.mpr ⟨hx, by simpa using hxmatch⟩)
  · intro h
    obtain ⟨k, hk⟩ := Option.ne_none_iff_exists'.mp h
    simp [getDeliveryQuote, hk]
  · rfl

/-- Witness for `lookupKnownLocation_longest_match`: applied to
"I am in Kondele", whose lookup hits ("kondele", 2). -/
theorem lookupKnownLocation_longest_match_witness :
    ("kondele", (2 : ℚ)) ∈ KNOWN_LOCATIONS ∧
    wordBoundaryMatch ("kondele", (2 : ℚ)).1.data (lowerData "I am in Kondele") =
      true ∧
    ∀ x ∈ KNOWN_LOCATIONS,
      wordBoundaryMatch x.1.data (lowerData "I am in Kondele") = true →
      x.1.length ≤ ("kondele", (2 : ℚ)).1.length :=
  (lookupKnownLocation_longest_match "I am in Kondele" ("kondele", 2)
    (fun _ => 0) (fun _ => 0) .netFail .netFail .netFail .netFail).1 (by rfl)

/-- Counterexample to claim C4 as stated: the input
"near Kondele junction on Kakamega road" does not resolve to Kondele's fixed
distance 2 — both "kondele" and "kakamega" match at word boundaries and the
longer name "kakamega" wins with its fixed 60 km. -/
theorem lookupKnownLocation_kondele_example_fails :
    lookupKnownLocation "near Kondele junction on Kakamega road" =
      some ("kakamega", 60) ∧
    ¬(lookupKnownLocation "near Kondele junction on Kakamega road" =
      some ("kondele", 2)) := by
  refine ⟨by rfl, ?_⟩
  intro h
  rw [show lookupKnownLocation "near Kondele junction on Kakamega road" =
    some ("kakamega", 60) from by rfl] at h
  simp at h

/-- Effect of `addToCart` on the cart's product-id sequence: an already
present product leaves it unchanged, a new product appends its id. -/
theorem map_productId_addToCartList (P : Product) (q : ℚ) (n : Option String)
    (cart : List CartItem) :
    (addToCartList P q n cart).map CartItem.productId =
      if cart.any fun item => item.productId = P.id then
        cart.map CartItem.productId
      else cart.map CartItem.productId ++ [P.id] := by
  induction cart with
  | nil => simp [addToCartList, newCartItem]
  | cons item rest ih =>
    by_cases hid : item.productId = P.id
    · simp [addToCartList, hid]
    · by_cases hany : rest.any fun it => it.productId = P.id <;>
        simp [addToCartList, hid, hany, ih]

/-- `addToCart` preserves the at-most-one-line-per-product invariant. -/
theorem addToCartList_nodup (P : Product) (q : ℚ) (n : Option String)
    (cart : List CartItem) (h : (cart.map CartItem.productId).Nodup) :
    ((addToCartList P q n cart).map CartItem.productId).Nodup := by
  rw [map_productId_addToCartList]
  by_cases hany : cart.any fun item => item.productId = P.id
  · simpa [hany] using h
  · rw [if_neg hany]
    rw [List.nodup_append]
    refine ⟨h, List.nodup_singleton _, ?_⟩
    intro x hx hx'
    obtain rfl : x = P.id := by simpa using hx'
    obtain ⟨item, hitem, hid⟩ := List.mem_map.mp hx
    rw [List.any_eq_true] at hany
    exact hany ⟨item, hitem, by simp [hid]⟩

/-- Claim C3: adding the same product twice to an empty cart merges into a
single line with summed quantity and total (q1 + q2) × unit price, and every
sequence of cart operations preserves at most one cart line per product
id. -/
theorem addToCart_merge_and_nodup :
    (∀ (P : Product) (q1 q2 : ℚ) (n1 n2 : Option String), 0 < q1 → 0 < q2 →
      applyCartOps [] [.add P q1 n1, .add P q2 n2] =
        [{ productId := P.id
           productName := P.name
           productNameSwahili := P.nameSwahili
           quantity := q1 + q2
           unitPrice := P.basePrice
           totalPrice := (q1 + q2) * P.basePrice
           unit := P.unit
           notes := mergeNotes n2 n1 }]) ∧
    ∀ (init : List CartItem) (ops : List CartOp),
      (init.map CartItem.productId).Nodup →
      ((applyCartOps init ops).map CartItem.productId).Nodup := by
  constructor
  · intro P q1 q2 n1 n2 _ _
    simp [applyCartOps, applyCartOp, addToCartList, newCartItem]
  · intro init ops
    induction ops generalizing init with
    | nil => exact fun h => h
    | cons op rest ih =>
      intro h
      rw [show applyCartOps init (op :: rest) =
        applyCartOps (applyCartOp init op) rest from rfl]
      refine ih _ ?_
      cases op with
      | add P q n => exact addToCartList_nodup P q n init h
      | remove pid =>
        exact ((List.filter_sublist init).map CartItem.productId).nodup h
      | clear => simp [applyCartOp]

/-- Witness for `addToCart_merge_and_nodup`: the sample product added with
quantities 2 then 3 to an empty cart. -/
theorem addToCart_merge_and_nodup_witness :
    0 < (2 : ℚ) ∧ 0 < (3 : ℚ) ∧
    applyCartOps [] [.add sampleProduct 2 none,
        .add sampleProduct 3 (some "large")] =
      [{ productId := sampleProduct.id
         productName := sampleProduct.name
         productNameSwahili := sampleProduct.nameSwahili
         quantity := 2 + 3
         unitPrice := sampleProduct.basePrice
         totalPrice := (2 + 3) * sampleProduct.basePrice
         unit := sampleProduct.unit
         notes := mergeNotes (some "large") none }] :=
  ⟨by decide, by decide,
    addToCart_merge_and_nodup.1 sampleProduct 2 3 none (some "large")
      (by decide) (by decide)⟩

/-- Unfolding `lookupEdge` over a cons cell. -/
theorem lookupEdge_cons (e : RecEdge) (g : RecGraph) (p r : String) :
    lookupEdge (e :: g) p r =
      if e.productId = p ∧ e.recommendedId = r then some e.strength
      else lookupEdge g p r := by
  by_cases h : e.productId = p ∧ e.recommendedId = r <;>
    simp [lookupEdge, List.find?, h]

/-- Full characterization of `incrementRecommendation`: the addressed edge is
created at `defaultStrength` or incremented by 1, every other key is
untouched. -/
theorem lookupEdge_increment (p r p' r' : String) (g : RecGraph) :
    lookupEdge (incrementRecommendation p r g) p' r' =
      if p' = p ∧ r' = r then
        (match lookupEdge g p r with
         | none => some defaultStrength
         | some s => some (s + 1))
      else lookupEdge g p' r' := by
  induction g with
  | nil =>
    have h0 : lookupEdge ([] : RecGraph) p r = none := rfl
    unfold incrementRecommendation
    rw [h0]
    dsimp only
    rw [List.nil_append, lookupEdge_cons]
    by_cases hc : p' = p ∧ r' = r
    · obtain ⟨rfl, rfl⟩ := hc
      simp
    · rw [if_neg fun hpr => hc ⟨hpr.1.symm, hpr.2.symm⟩, if_neg hc]
  | cons e g' ih =>
    by_cases hpe : e.productId = p ∧ e.recommendedId = r
    · have hl : lookupEdge (e :: g') p r = some e.strength := by
        rw [lookupEdge_cons, if_pos hpe]
      have hinc : incrementRecommendation p r (e :: g') =
          { e with strength := e.strength + 1 } :: g' := by
        unfold incrementRecommendation
        rw [hl]
        dsimp only
        rw [setEdgeStrength, if_pos hpe]
      rw [hinc, hl]
      dsimp only
      rw [lookupEdge_cons]
      dsimp only
      by_cases hc : p' = p ∧ r' = r
      · rw [if_pos hc,
          if_pos ⟨hpe.1.trans hc.1.symm, hpe.2.trans hc.2.symm⟩]
      · have hne : ¬(e.productId = p' ∧ e.recommendedId = r') :=
          fun hh => hc ⟨hh.1.symm.trans hpe.1, hh.2.symm.trans hpe.2⟩
        rw [if_neg hc, if_neg hne, lookupEdge_cons, if_neg hne]
    · -- the head edge is not the incremented key, so it is retained as-is
      have hl : lookupEdge (e :: g') p r = lookupEdge g' p r := by
        rw [lookupEdge_cons, if_neg hpe]
      have hstep : incrementRecommendation p r (e :: g') =
          e :: incrementRecommendation p r g' := by
        unfold incrementRecommendation
        rw [hl]
        cases hg : lookupEdge g' p r with
        | none => dsimp only; rw [List.cons_append]
        | some s => dsimp only; rw [setEdgeStrength, if_neg hpe]
      rw [hstep, lookupEdge_cons, ih, hl, lookupEdge_cons]
      by_cases hce : e.productId = p' ∧ e.recommendedId = r'
      · have hc : ¬(p' = p ∧ r' = r) := by
          intro hh
          exact hpe ⟨hh.1 ▸ hce.1, hh.2 ▸ hce.2⟩
        rw [if_pos hce, if_neg hc, if_pos hce]
      · rw [if_neg hce, if_neg hce]

/-- The six directed edges among a three-product order. -/
def triplePairs (A B C : String) : List (String × String) :=
  [(A, B), (B, A), (A, C), (C, A), (B, C), (C, B)]

/-- `updateRecommendationsFromOrder` on `[A, B, C]` is six chained
increments. -/
theorem updateFromOrder_triple_unfold (A B C : String) (g : RecGraph) :
    updateRecommendationsFromOrder [A, B, C] g =
      incrementRecommendation C B (incrementRecommendation B C
        (incrementRecommendation C A (incrementRecommendation A C
          (incrementRecommendation B A (incrementRecommendation A B g))))) :=
  rfl

/-- Per-run characterization of the triple update: a pair among the six is
created at `defaultStrength` or incremented by 1, any other key is
untouched. -/
theorem updateFromOrder_triple_lookup (A B C x y : String) (g : RecGraph)
    (hAB : A ≠ B) (hAC : A ≠ C) (hBC : B ≠ C) :
    lookupEdge (updateRecommendationsFromOrder [A, B, C] g) x y =
      if (x, y) ∈ triplePairs A B C then
        (match lookupEdge g x y with
         | none => some defaultStrength
         | some s => some (s + 1))
      else lookupEdge g x y := by
  have hBA := hAB.symm
  have hCA := hAC.symm
  have hCB := hBC.symm
  rw [updateFromOrder_triple_unfold]
  by_cases hmem : (x, y) ∈ triplePairs A B C
  · rw [if_pos hmem]
    simp only [triplePairs, List.mem_cons, List.mem_singleton,
      Prod.mk.injEq, List.not_mem_nil, or_false] at hmem
    rcases hmem with ⟨rfl, rfl⟩ | ⟨rfl, rfl⟩ | ⟨rfl, rfl⟩ | ⟨rfl, rfl⟩ |
      ⟨rfl, rfl⟩ | ⟨rfl, rfl⟩ <;>
      simp [lookupEdge_increment, hAB, hAC, hBC, hBA, hCA, hCB]
  · rw [if_neg hmem]
    simp only [triplePairs, List.mem_cons, List.mem_singleton,
      Prod.mk.injEq, List.not_mem_nil, or_false, not_or] at hmem
    obtain ⟨h1, h2, h3, h4, h5, h6⟩ := hmem
    simp [lookupEdge_increment, h1, h2, h3, h4, h5, h6]

/-- Claim C6: a three-product order creates or increments exactly the six
directed edges among its distinct products — absent edges are created at
strength 1, present edges gain 1, all other edges are untouched (so a
symmetric graph stays symmetric); a second run on the same triple doubles
the increment, giving strength 2 from an empty graph; and an order with
fewer than two items (hence fewer than two distinct products, as order items
have distinct product ids) performs no update. -/
theorem updateFromOrder_triple_spec (A B C x y : String) (g : RecGraph)
    (hAB : A ≠ B) (hAC : A ≠ C) (hBC : B ≠ C) :
    ((x, y) ∈ triplePairs A B C →
      lookupEdge (updateRecommendationsFromOrder [A, B, C] g) x y =
        (match lookupEdge g x y with
         | none => some defaultStrength
         | some s => some (s + 1))) ∧
    ((x, y) ∉ triplePairs A B C →
      lookupEdge (updateRecommendationsFromOrder [A, B, C] g) x y =
        lookupEdge g x y) ∧
    ((x, y) ∈ triplePairs A B C →
      lookupEdge (updateRecommendationsFromOrder [A, B, C]
        (updateRecommendationsFromOrder [A, B, C] [])) x y = some 2) ∧
    (∀ items : List String, items.length < 2 →
      updateRecommendationsFromOrder items g = g) := by
  refine ⟨?_, ?_, ?_, ?_⟩
  · intro hmem
    rw [updateFromOrder_triple_lookup A B C x y g hAB hAC hBC, if_pos hmem]
  · intro hmem
    rw [updateFromOrder_triple_lookup A B C x y g hAB hAC hBC, if_neg hmem]
  · intro hmem
    have hfirst :
        lookupEdge (updateRecommendationsFromOrder [A, B, C] []) x y =
          some defaultStrength := by
      rw [updateFromOrder_triple_lookup A B C x y [] hAB hAC hBC,
        if_pos hmem]
      rfl
    rw [updateFromOrder_triple_lookup A B C x y _ hAB hAC hBC,
      if_pos hmem, hfirst]
    dsimp only
    show some (defaultStrength + 1) = some 2
    norm_num [defaultStrength]
  · intro items hlen
    match items, hlen with
    | [], _ => rfl
    | [a], _ => rfl

/-- Witness for `updateFromOrder_triple_spec`: products "a", "b", "c" and
the edge a→b from the empty graph. -/
theorem updateFromOrder_triple_spec_witness :
    ("a" : String) ≠ "b" ∧ ("a" : String) ≠ "c" ∧ ("b" : String) ≠ "c" ∧
    ("a", "b") ∈ triplePairs "a" "b" "c" ∧
    lookupEdge (updateRecommendationsFromOrder ["a", "b", "c"] []) "a" "b" =
      (match lookupEdge ([] : RecGraph) "a" "b" with
       | none => some defaultStrength
       | some s => some (s + 1)) :=
  ⟨by decide, by decide, by decide, by decide,
    (updateFromOrder_triple_spec "a" "b" "c" "a" "b" [] (by decide)
      (by decide) (by decide)).1 (by decide)⟩

/-- Membership through `insertDesc`. -/
theorem mem_insertDesc (e x : RecRow) (l : List RecRow) :
    x ∈ insertDesc e l ↔ x = e ∨ x ∈ l := by
  induction l with
  | nil => simp [insertDesc]
  | cons a l' ih =>
    by_cases h : a.strength < e.strength
    · simp [insertDesc, h]
    · simp [insertDesc, h, ih]
      tauto

/-- Sorting by strength does not change membership. -/
theorem mem_sortByStrengthDesc (x : RecRow) (l : List RecRow) :
    x ∈ sortByStrengthDesc l ↔ x ∈ l := by
  induction l with
  | nil => simp [sortByStrengthDesc]
  | cons a l' ih =>
    rw [show sortByStrengthDesc (a :: l') =
      insertDesc a (sortByStrengthDesc l') from rfl]
    rw [mem_insertDesc]
    simp [ih]

/-- Every product collected by the recommendation loop that was not already
in the accumulator comes from one of the scanned rows and is not in the
cart. -/
theorem buildRecommendations_mem (cartIds : List String)
    (edges : List RecRow) (acc : List Product) (p : Product)
    (h : p ∈ buildRecommendations cartIds edges acc) :
    p ∈ acc ∨ ∃ e ∈ edges, p = e.recommended ∧
      cartIds.contains p.id = false := by
  induction edges generalizing acc with
  | nil => exact .inl h
  | cons e rest ih =>
    rw [buildRecommendations] at h
    by_cases hcart : cartIds.contains e.recommended.id
    · rw [if_pos hcart] at h
      rcases ih acc h with h' | ⟨e', he', hp⟩
      · exact .inl h'
      · exact .inr ⟨e', by simp [he'], hp⟩
    · rw [if_neg hcart] at h
      by_cases hdup : acc.any fun q => q.id = e.recommended.id
      · rw [if_pos hdup] at h
        rcases ih acc h with h' | ⟨e', he', hp⟩
        · exact .inl h'
        · exact .inr ⟨e', by simp [he'], hp⟩
      · rw [if_neg hdup] at h
        have hmem_acc' : ∀ q ∈ (if e.recommended.isActive &&
            e.recommended.availability == .IN_STOCK then
              acc ++ [e.recommended] else acc),
            q ∈ acc ∨ q = e.recommended := by
          intro q hq
          by_cases hact : e.recommended.isActive &&
            e.recommended.availability == .IN_STOCK
          · rw [if_pos hact] at hq
            rcases List.mem_append.mp hq with h' | h'
            · exact .inl h'
            · exact .inr (by simpa using h')
          · rw [if_neg hact] at hq
            exact .inl hq
        by_cases hbreak : maxRecommendations ≤
            (if e.recommended.isActive &&
              e.recommended.availability == .IN_STOCK then
                acc ++ [e.recommended] else acc).length
        · rw [if_pos hbreak] at h
          rcases hmem_acc' p h with h' | h'
          · exact .inl h'
          · exact .inr ⟨e, by simp, by rw [h'],
              by rw [h']; simpa using hcart⟩
        · rw [if_neg hbreak] at h
          rcases ih _ h with h' | ⟨e', he', hp⟩
          · rcases hmem_acc' p h' with h'' | h''
            · exact .inl h''
            · exact .inr ⟨e, by simp, by rw [h''],
                by rw [h'']; simpa using hcart⟩
          · exact .inr ⟨e', by simp [he'], hp⟩

/-- The recommendation loop never grows past the cap. -/
theorem buildRecommendations_length (cartIds : List String)
    (edges : List RecRow) (acc : List Product)
    (h : acc.length < maxRecommendations) :
    (buildRecommendations cartIds edges acc).length ≤ maxRecommendations := by
  induction edges generalizing acc with
  | nil => exact le_of_lt h
  | cons e rest ih =>
    rw [buildRecommendations]
    by_cases hcart : cartIds.contains e.recommended.id
    · rw [if_pos hcart]; exact ih acc h
    · rw [if_neg hcart]
      by_cases hdup : acc.any fun q => q.id = e.recommended.id
      · rw [if_pos hdup]; exact ih acc h
      · rw [if_neg hdup]
        have hlen : (if e.recommended.isActive &&
            e.recommended.availability == .IN_STOCK then
              acc ++ [e.recommended] else acc).length ≤ acc.length + 1 := by
          by_cases hact : e.recommended.isActive &&
            e.recommended.availability == .IN_STOCK
          · simp [hact]
          · simp [hact]
        by_cases hbreak : maxRecommendations ≤
            (if e.recommended.isActive &&
              e.recommended.availability == .IN_STOCK then
                acc ++ [e.recommended] else acc).length
        · rw [if_pos hbreak]
          exact le_trans hlen (Nat.succ_le_of_lt h)
        · rw [if_neg hbreak]
          exact ih _ (Nat.lt_of_not_le hbreak)

/-- Claim C7: `getRecommendations` returns at most `maxRecommendations = 3`
products, never one already in the cart, and every returned product is the
target of a queried edge whose source is in the cart and whose strength
reaches `minStrength = 2`. -/
theorem getRecommendations_spec (cart : List CartItem)
    (rows : List RecRow) :
    maxRecommendations = 3 ∧ minStrength = 2 ∧
    (getRecommendations cart rows).length ≤ maxRecommendations ∧
    ∀ p ∈ getRecommendations cart rows,
      (∀ item ∈ cart, item.productId ≠ p.id) ∧
      ∃ e ∈ rows, e.recommended = p ∧ minStrength ≤ e.strength ∧
        ∃ item ∈ cart, item.productId = e.productId := by
  refine ⟨rfl, rfl, ?_, ?_⟩
  · by_cases hcart : cart = []
    · simp [getRecommendations, hcart, maxRecommendations]
    · rw [getRecommendations, if_neg hcart]
      exact buildRecommendations_length _ _ []
        (by norm_num [maxRecommendations])
  · intro p hp
    by_cases hcart : cart = []
    · rw [getRecommendations, if_pos hcart] at hp
      exact absurd hp (by simp)
    · rw [getRecommendations, if_neg hcart] at hp
      rcases buildRecommendations_mem _ _ _ _ hp with h' | ⟨e, he, hpe, hnc⟩
      · exact absurd h' (by simp)
      · have hnotmem : p.id ∉ cart.map CartItem.productId := by
          intro hmem
          rw [List.contains_eq_any_beq] at hnc
          rw [List.any_eq_false] at hnc
          exact absurd (by simpa using hmem)
            (by simpa using hnc p.id (by simpa using hmem))
        refine ⟨?_, ?_⟩
        · intro item hitem heq
          exact hnotmem (List.mem_map.mpr ⟨item, hitem, heq⟩)
        · have he' : e ∈ recommendationQuery (cart.map CartItem.productId)
              rows := he
          rw [recommendationQuery] at he'
          have he'' := List.take_subset _ _ he'
          rw [mem_sortByStrengthDesc] at he''
          have hef := List.mem_filter.mp he''
          have hpred := hef.2
          simp only [decide_eq_true_eq] at hpred
          refine ⟨e, hef.1, hpe.symm, hpred.2, ?_⟩
          obtain ⟨item, hitem, hid⟩ :=
            List.mem_map.mp (by simpa using hpred.1)
          exact ⟨item, hitem, hid⟩

/-- A second sample product, recommended alongside `sampleProduct`. -/
def sampleProduct2 : Product :=
  { id := "p2"
    name := "Sukuma Wiki"
    nameSwahili := some "Sukuma"
    category := .VEGETABLES
    basePrice := 50
    unit := "per bunch"
    availability := .IN_STOCK
    stockQuantity := none
    isActive := true }

/-- A sample cart line holding `sampleProduct`. -/
def sampleCartItem : CartItem :=
  { productId := "p1"
    productName := "Tilapia"
    productNameSwahili := some "Ngege"
    quantity := 1
    unitPrice := 500
    totalPrice := 500
    unit := "per kg"
    notes := none }

/-- A sample recommendation row from `sampleProduct` to `sampleProduct2`. -/
def sampleRow : RecRow :=
  { productId := "p1", strength := 5, recommended := sampleProduct2 }

/-- Witness for `getRecommendations_spec`: with `sampleProduct` in the cart
and one strong edge toward `sampleProduct2`, that product is recommended and
satisfies the guarantees. -/
theorem getRecommendations_spec_witness :
    sampleProduct2 ∈ getRecommendations [sampleCartItem] [sampleRow] ∧
    ((∀ item ∈ [sampleCartItem], item.productId ≠ sampleProduct2.id) ∧
      ∃ e ∈ [sampleRow], e.recommended = sampleProduct2 ∧
        minStrength ≤ e.strength ∧
        ∃ item ∈ [sampleCartItem], item.productId = e.productId) :=
  ⟨by decide,
    (getRecommendations_spec [sampleCartItem] [sampleRow]).2.2.2
      sampleProduct2 (by decide)⟩

/-- Claim C5: checkout on an empty cart fails with the empty-cart error, and
checkout on a non-empty cart without a delivery location fails with the
missing-location error; in both cases the action leaves the in-memory session
state and the whole store — cart, step, location, orders — untouched. -/
theorem processCheckout_validation (emailOk : Bool) (cid : String)
    (state : ConversationState) (db : Db) :
    (state.cart = [] →
      processCheckout emailOk cid state db = .error "Cart is empty" ∧
      applyAction emailOk cid (state, db) .confirmOrder = (state, db)) ∧
    (state.cart ≠ [] → locationPresent state.deliveryLocation = false →
      processCheckout emailOk cid state db =
        .error "Delivery location is required" ∧
      applyAction emailOk cid (state, db) .confirmOrder = (state, db)) := by
  constructor
  · intro h
    have herr : processCheckout emailOk cid state db = .error "Cart is empty" := by
      simp [processCheckout, h, bind, Except.bind, throw, throwThe,
        MonadExceptOf.throw, pure, Except.pure]
    refine ⟨herr, ?_⟩
    simp [applyAction, herr]
  · intro h1 h2
    have herr : processCheckout emailOk cid state db =
        .error "Delivery location is required" := by
      simp [processCheckout, h1, h2, bind, Except.bind, throw, throwThe,
        MonadExceptOf.throw, pure, Except.pure]
    refine ⟨herr, ?_⟩
    simp [applyAction, herr]

/-- A store with no sessions, orders, products or edges. -/
def emptyDb : Db := { sessions := [], orders := [], products := [], recs := [] }

/-- A session that added one product but gave no delivery location. -/
def sampleStateNoLoc : ConversationState :=
  { getDefaultState with cart := [sampleCartItem] }

/-- A session ready for checkout: one cart line and a delivery location. -/
def sampleStateReady : ConversationState :=
  { getDefaultState with
    cart := [sampleCartItem]
    deliveryLocation := some "Kondele"
    step := .confirming_order }

/-- Witness for `processCheckout_validation`: the default (empty-cart)
session and a located-but-empty variant. -/
theorem processCheckout_validation_witness :
    (processCheckout false "c1" getDefaultState emptyDb =
        .error "Cart is empty" ∧
      applyAction false "c1" (getDefaultState, emptyDb) .confirmOrder =
        (getDefaultState, emptyDb)) ∧
    (processCheckout false "c1" sampleStateNoLoc emptyDb =
        .error "Delivery location is required" ∧
      applyAction false "c1" (sampleStateNoLoc, emptyDb) .confirmOrder =
        (sampleStateNoLoc, emptyDb)) :=
  ⟨(processCheckout_validation false "c1" getDefaultState emptyDb).1 rfl,
    (processCheckout_validation false "c1" sampleStateNoLoc emptyDb).2
      (by decide) rfl⟩

/-- `clearCartDb` touches only the session rows, never the orders. -/
theorem clearCartDb_orders (db : Db) (cid : String) :
    (clearCartDb db cid).orders = db.orders := by
  simp only [clearCartDb, updateState]
  split <;> rfl

/-- A successful checkout appends exactly one order to the store. -/
theorem processCheckout_ok_orders (emailOk : Bool) (cid : String)
    (state : ConversationState) (db : Db) (h1 : state.cart ≠ [])
    (h2 : locationPresent state.deliveryLocation = true) :
    ∃ db', processCheckout emailOk cid state db = .ok db' ∧
      db'.orders.length = db.orders.length + 1 := by
  cases hc : processCheckout emailOk cid state db with
  | error e =>
    exfalso
    simp [processCheckout, createOrder, h1, h2, bind, Except.bind, throw,
      throwThe, MonadExceptOf.throw, Functor.map, Except.map, pure,
      Except.pure] at hc
  | ok db' =>
    refine ⟨db', rfl, ?_⟩
    simp [processCheckout, createOrder, h1, h2, bind, Except.bind, throw,
      throwThe, MonadExceptOf.throw, Functor.map, Except.map, pure,
      Except.pure] at hc
    rw [← hc, clearCartDb_orders]
    cases emailOk <;> simp [updateOrderStatus]

/-- Claim C2 (the code violates it): two confirm-order actions in the same
action batch each run checkout to completion — the first checkout clears the
stored cart but not the in-memory `state` shared by the batch, so the second
checkout passes validation again and a second order is created. -/
theorem double_confirm_creates_two_orders (emailOk : Bool) (cid : String)
    (state : ConversationState) (db : Db) (h1 : state.cart ≠ [])
    (h2 : locationPresent state.deliveryLocation = true) :
    (executeActions emailOk cid state db
      [.confirmOrder, .confirmOrder]).2.orders.length =
      db.orders.length + 2 := by
  obtain ⟨db1, hok1, hlen1⟩ :=
    processCheckout_ok_orders emailOk cid state db h1 h2
  obtain ⟨db2, hok2, hlen2⟩ :=
    processCheckout_ok_orders emailOk cid state db1 h1 h2
  have hstep1 : applyAction emailOk cid (state, db) .confirmOrder =
      (state, db1) := by
    simp [applyAction, hok1]
  have hstep2 : applyAction emailOk cid (state, db1) .confirmOrder =
      (state, db2) := by
    simp [applyAction, hok2]
  rw [show executeActions emailOk cid state db
      [.confirmOrder, .confirmOrder] =
    applyAction emailOk cid
      (applyAction emailOk cid (state, db) .confirmOrder) .confirmOrder
    from rfl]
  rw [hstep1, hstep2]
  dsimp only
  omega

/-- Witness for `double_confirm_creates_two_orders`: a ready session whose
batch of two confirms yields two orders in an initially empty store. -/
theorem double_confirm_creates_two_orders_witness :
    sampleStateReady.cart ≠ [] ∧
    locationPresent sampleStateReady.deliveryLocation = true ∧
    (executeActions false "c1" sampleStateReady emptyDb
      [.confirmOrder, .confirmOrder]).2.orders.length =
      emptyDb.orders.length + 2 :=
  ⟨by decide, rfl,
    double_confirm_creates_two_orders false "c1" sampleStateReady emptyDb
      (by decide) rfl⟩

end AllivanFresh

